import Mathlib

/-!
Shallow embedding of `src/script.py`, a script that archives aging S3
objects to Glacier Deep Archive in one segment per run.

Modelling conventions:
* S3 keys, local paths and user identifiers are `List Char` (Python strings).
* MongoDB ObjectIds are `Nat` in the externally defined identifier order.
* The `proctoringmedias` collection is passed in as the id-ascending list of
  documents; `find` with a strictly-greater filter, ascending id sort and a
  limit of 1000 becomes `filter` followed by `take 1000` on that list.
* `history.json` is a `List Checkpoint`; `update_history_file` appends.
* S3 side effects (downloads, uploads, deletes, local removals) are recorded
  as an ordered `Event` trace; the thread pool of `download_segment` is
  sequentialized in submission order, which preserves everything the claims
  ask about (set of files, totals, abort behaviour).
* A Python exception that `main` does not catch ends the run with
  `crashed = true`; the `except` clause of `upload_to_s3` swallows upload
  errors, which is modelled by the `uploadOk` flag choosing a branch.
-/

/-- Bucket name constant of the script. -/
def BUCKET_NAME : List Char := "assess-platform-prod-user-data".data

/-- Source key root under which the original objects live. -/
def SOURCE_PFX : List Char := "proctoring/images/camera/u/".data

/-- Destination key root for uploaded archives. -/
def DESTINATION_PFX : List Char := "proctoring/images/camera/u-glacier/".data

/-- Local scratch directory of the script. -/
def LOCAL_TEMP_DIR : List Char := "temp/".data

/-- Segment size constant: the script sets `10 * 1024 * 1024 * 1024` (its
comment says "1GB in bytes"); no other line of the script reads it. -/
def SEGMENT_SIZE : Nat := 10 * 1024 * 1024 * 1024

/-- Model of `os.path.join a b` for the two-argument uses in the script:
an absolute second component discards the first, otherwise the components
are joined with a separator unless one is already present. -/
def osPathJoin (a b : List Char) : List Char :=
  if b.head? = some '/' then b
  else if a = [] ∨ a.getLast? = some '/' then a ++ b
  else a ++ '/' :: b

/-- Local path chosen by `download_file` for an S3 key:
`os.path.join(local_dir, key[len(SOURCE_PREFIX):])` with
`local_dir = LOCAL_TEMP_DIR`. -/
def localPathOf (key : List Char) : List Char :=
  osPathJoin LOCAL_TEMP_DIR (key.drop SOURCE_PFX.length)

/-- Archive member name chosen by `compress_files`:
`file[len(LOCAL_TEMP_DIR):]`. -/
def arcnameOf (file : List Char) : List Char :=
  file.drop LOCAL_TEMP_DIR.length

/-- S3 key that `delete_files_from_s3` derives from a local file path:
`SOURCE_PREFIX + file[len(LOCAL_TEMP_DIR):]`. -/
def deleteKeyOf (file : List Char) : List Char :=
  SOURCE_PFX ++ file.drop LOCAL_TEMP_DIR.length

/-- Consecutive slices `l[i:i+1000]` for `i in range(0, len(l), 1000)`,
the batching loop of `delete_files_from_s3`. -/
def toBatches {α : Type} : List α → List (List α)
  | [] => []
  | x :: xs => (x :: xs).take 1000 :: toBatches ((x :: xs).drop 1000)
termination_by l => l.length
decreasing_by simp; omega

/-- One record of `history.json`: the script stores the first and last
ObjectId of the batch of documents and their count. -/
structure Checkpoint where
  first_id : Nat
  last_id : Nat
  total : Nat
deriving DecidableEq, Repr

/-- Model of `update_history_file`: append one record to the history list. -/
def update_history_file (history : List Checkpoint) (f l t : Nat) :
    List Checkpoint :=
  history ++ [⟨f, l, t⟩]

/-- Resume cursor read by `main`: the `last_id` of the last history record,
or `none` when `history.json` does not exist (modelled as empty history). -/
def readCursor (history : List Checkpoint) : Option Nat :=
  history.getLast?.map Checkpoint.last_id

/-- One document of the `proctoringmedias` collection, projected to the
fields the script uses. -/
structure Doc where
  id : Nat
  user : List Char
deriving DecidableEq, Repr

/-- Model of the `find` call of `main`: documents with id strictly greater
than the cursor (all documents when there is no cursor), in ascending id
order, limited to 1000. The store argument is the collection content already
enumerated in ascending id order. -/
def findDocs (cursor : Option Nat) (store : List Doc) : List Doc :=
  (match cursor with
   | none => store
   | some c => store.filter (fun d => c < d.id)).take 1000

/-- First ObjectId of a batch, `proctoring_medias[0]['_id']`. -/
def firstId (docs : List Doc) : Nat :=
  (docs.head?.map Doc.id).getD 0

/-- Last ObjectId of a batch, `proctoring_medias[-1]['_id']`. -/
def lastId (docs : List Doc) : Nat :=
  (docs.getLast?.map Doc.id).getD 0

/-- Source key root derived for one document:
`f"proctoring/images/camera/u/{media['singleAssessmentUser']}/"`. -/
def userPfx (d : Doc) : List Char :=
  SOURCE_PFX ++ d.user ++ ['/']

/-- One listed S3 object: its key and its size in bytes. -/
structure S3Obj where
  key : List Char
  size : Nat
deriving DecidableEq, Repr

/-- Model of `get_files_to_download`: concatenate the paginated listings of
every given key root, in order. The listing collaborator is a function from
a key root to the objects under it. -/
def get_files_to_download (listing : List Char → List S3Obj)
    (roots : List (List Char)) : List S3Obj :=
  (roots.map listing).flatten

/-- Observable steps of one run, in program order. -/
inductive Event where
  | checkpointWrite (first last total : Nat)
  | download (key : List Char)
  | fetchAbort (key : List Char)
  | compressFiles (arcnames : List (List Char))
  | uploadAttempt
  | uploadDone
  | uploadFailed
  | deleteBatch (keys : List (List Char))
  | removeLocal (path : List Char)
  | removeZip
  | exitNormal
deriving DecidableEq, Repr

/-- Event classifiers used to state trace properties. -/
def Event.isCheckpointWrite : Event → Bool
  | .checkpointWrite _ _ _ => true
  | _ => false

def Event.isDownload : Event → Bool
  | .download _ => true
  | _ => false

def Event.isFetchAbort : Event → Bool
  | .fetchAbort _ => true
  | _ => false

def Event.isCompress : Event → Bool
  | .compressFiles _ => true
  | _ => false

def Event.isUploadAttempt : Event → Bool
  | .uploadAttempt => true
  | _ => false

def Event.isDeleteBatch : Event → Bool
  | .deleteBatch _ => true
  | _ => false

def Event.isRemoveLocal : Event → Bool
  | .removeLocal _ => true
  | _ => false

def Event.isRemoveZip : Event → Bool
  | .removeZip => true
  | _ => false

/-- Model of `download_segment`, sequentialized in submission order. The
`fails` oracle says which single-object downloads raise. A raising download
aborts the whole segment: the events produced so far stay, the result is
`none` (the exception propagates out of `main`). On success the result is
the list of local paths and the summed size; no size budget is consulted. -/
def downloadSegment (fails : List Char → Bool) :
    List S3Obj → List Event × Option (List (List Char) × Nat)
  | [] => ([], some ([], 0))
  | f :: rest =>
    if fails f.key then ([Event.fetchAbort f.key], none)
    else
      let r := downloadSegment fails rest
      (Event.download f.key :: r.1,
       r.2.map (fun p => (localPathOf f.key :: p.1, f.size + p.2)))

/-- Model of `delete_files_from_s3` with a response oracle: `confirm` gives
the number of keys the bulk-delete response confirms for each issued call.
The function returns the list of issued calls (each a list of derived keys)
and the confirmed count observed for each call; the script only prints the
counts and never compares them to the request size. -/
def delete_files_from_s3 (confirm : List (List Char) → Nat)
    (files : List (List Char)) : List (List (List Char)) × List Nat :=
  ((toBatches files).map (fun b => b.map deleteKeyOf),
   (toBatches files).map (fun b => confirm (b.map deleteKeyOf)))

/-- Model of `upload_to_s3` as the events of its try/except body: on a
successful `s3.upload_file` the bulk deletes are issued inside the same
`try`; on a raising upload the `except` swallows the error and nothing else
happens — in particular no delete call is issued. -/
def uploadToS3 (uploadOk : Bool) (segFiles : List (List Char)) : List Event :=
  if uploadOk then
    Event.uploadAttempt :: Event.uploadDone ::
      (toBatches segFiles).map (fun b => Event.deleteBatch (b.map deleteKeyOf))
  else [Event.uploadAttempt, Event.uploadFailed]

/-- Model of `cleanup_local_files`: remove every downloaded file, then the
zip archive, unconditionally. -/
def cleanupLocalFiles (segFiles : List (List Char)) : List Event :=
  segFiles.map Event.removeLocal ++ [Event.removeZip]

/-- Outcome of one invocation of `main`: the ordered event trace, the final
content of `history.json`, and whether an unhandled exception ended the
run. -/
structure RunResult where
  trace : List Event
  history : List Checkpoint
  crashed : Bool
deriving DecidableEq, Repr

/-- Model of `main`: read the cursor from the history, query the document
store, exit when no documents were found; otherwise append the checkpoint
record immediately, derive the key roots, list the files, download the
segment, and — unless the segment is empty or a download raised — compress,
upload (with the bulk deletes inside its `try`), and clean up. -/
def mainRun (history : List Checkpoint) (store : List Doc)
    (listing : List Char → List S3Obj) (fails : List Char → Bool)
    (uploadOk : Bool) : RunResult :=
  let docs := findDocs (readCursor history) store
  if docs = [] then ⟨[Event.exitNormal], history, false⟩
  else
    let f := firstId docs
    let l := lastId docs
    let history1 := update_history_file history f l docs.length
    let ev0 : List Event := [Event.checkpointWrite f l docs.length]
    let files := get_files_to_download listing (docs.map userPfx)
    let d := downloadSegment fails files
    match d.2 with
    | none => ⟨ev0 ++ d.1, history1, true⟩
    | some (segFiles, _segSize) =>
      if segFiles = [] then ⟨ev0 ++ d.1 ++ [Event.exitNormal], history1, false⟩
      else
        ⟨ev0 ++ d.1
          ++ [Event.compressFiles (segFiles.map arcnameOf)]
          ++ uploadToS3 uploadOk segFiles
          ++ cleanupLocalFiles segFiles
          ++ [Event.exitNormal], history1, false⟩

/-! Helper lemmas about the embedded operations. -/

theorem toBatches_flatten {α : Type} (l : List α) : (toBatches l).flatten = l := by
  induction l using toBatches.induct with
  | case1 => simp [toBatches]
  | case2 x xs ih =>
    rw [toBatches, List.flatten_cons, ih, List.take_append_drop]

theorem toBatches_length_le {α : Type} (l : List α) :
    ∀ b ∈ toBatches l, b.length ≤ 1000 := by
  induction l using toBatches.induct with
  | case1 => simp [toBatches]
  | case2 x xs ih =>
    intro b hb
    rw [toBatches] at hb
    rcases List.mem_cons.mp hb with h | h
    · subst h; simp
    · exact ih b h

theorem toBatches_cons_eq {α : Type} (l : List α) (h : l ≠ []) :
    toBatches l = l.take 1000 :: toBatches (l.drop 1000) := by
  cases l with
  | nil => exact absurd rfl h
  | cons x xs => rw [toBatches]

theorem toBatches_lengths_1500 {α : Type} (l : List α) (h : l.length = 1500) :
    (toBatches l).map List.length = [1000, 500] := by
  have h1 : l ≠ [] := by intro hn; rw [hn] at h; simp at h
  rw [toBatches_cons_eq l h1]
  have hd : (l.drop 1000).length = 500 := by rw [List.length_drop, h]
  have h2 : l.drop 1000 ≠ [] := by
    intro hn; rw [hn] at hd; simp at hd
  rw [toBatches_cons_eq _ h2]
  have hdd : (l.drop 1000).drop 1000 = [] := by
    apply List.eq_nil_of_length_eq_zero
    rw [List.length_drop, hd]
  rw [hdd, toBatches]
  simp [List.length_take, h, hd]

theorem localPathOf_eq (r : List Char) (hr : r.head? ≠ some '/') :
    localPathOf (SOURCE_PFX ++ r) = LOCAL_TEMP_DIR ++ r := by
  have hlast : LOCAL_TEMP_DIR.getLast? = some '/' := by decide
  unfold localPathOf osPathJoin
  rw [List.drop_left, if_neg hr, if_pos (Or.inr hlast)]

theorem deleteKeyOf_localPathOf (r : List Char) (hr : r.head? ≠ some '/') :
    deleteKeyOf (localPathOf (SOURCE_PFX ++ r)) = SOURCE_PFX ++ r := by
  rw [localPathOf_eq r hr]; unfold deleteKeyOf; rw [List.drop_left]

theorem arcnameOf_localPathOf (r : List Char) (hr : r.head? ≠ some '/') :
    arcnameOf (localPathOf (SOURCE_PFX ++ r)) = r := by
  rw [localPathOf_eq r hr]; unfold arcnameOf; rw [List.drop_left]

theorem downloadSegment_ok (fails : List Char → Bool) (files : List S3Obj)
    (h : ∀ f ∈ files, fails f.key = false) :
    downloadSegment fails files =
      (files.map (fun f => Event.download f.key),
       some (files.map (fun f => localPathOf f.key),
             (files.map S3Obj.size).sum)) := by
  induction files with
  | nil => rfl
  | cons f rest ih =>
    have hf : fails f.key = false := h f (List.mem_cons_self f rest)
    have ih' := ih (fun g hg => h g (List.mem_cons_of_mem f hg))
    simp [downloadSegment, hf, ih']

theorem downloadSegment_event_kinds (fails : List Char → Bool)
    (files : List S3Obj) :
    ∀ e ∈ (downloadSegment fails files).1,
      e.isDownload = true ∨ e.isFetchAbort = true := by
  induction files with
  | nil => simp [downloadSegment]
  | cons f rest ih =>
    intro e he
    by_cases hf : fails f.key = true
    · simp [downloadSegment, hf] at he
      subst he; right; rfl
    · rw [downloadSegment] at he
      simp only [Bool.not_eq_true] at hf
      rw [if_neg (by simp [hf])] at he
      rcases List.mem_cons.mp he with h | h
      · subst h; left; rfl
      · exact ih e h

/-- Documents retrieved by one run: the `find` result for the cursor read
from the history. -/
def runDocs (history : List Checkpoint) (store : List Doc) : List Doc :=
  findDocs (readCursor history) store

/-- Files listed by one run: the listings of the key roots derived from the
retrieved documents. -/
def runFiles (history : List Checkpoint) (store : List Doc)
    (listing : List Char → List S3Obj) : List S3Obj :=
  get_files_to_download listing ((runDocs history store).map userPfx)

/-- Checkpoint record appended by one run with a non-empty query result. -/
def runRecord (history : List Checkpoint) (store : List Doc) : Checkpoint :=
  ⟨firstId (runDocs history store), lastId (runDocs history store),
   (runDocs history store).length⟩

/-- Case analysis of `mainRun`: a run either finds no documents and exits,
or appends the checkpoint and then crashes during the fetch, or finds no
files and exits, or runs the full compress/upload/cleanup tail. -/
theorem mainRun_shape (history : List Checkpoint) (store : List Doc)
    (listing : List Char → List S3Obj) (fails : List Char → Bool)
    (uploadOk : Bool) :
    (runDocs history store = [] ∧
      mainRun history store listing fails uploadOk =
        ⟨[Event.exitNormal], history, false⟩) ∨
    (runDocs history store ≠ [] ∧
      (downloadSegment fails (runFiles history store listing)).2 = none ∧
      mainRun history store listing fails uploadOk =
        ⟨Event.checkpointWrite (runRecord history store).first_id
            (runRecord history store).last_id (runRecord history store).total ::
            (downloadSegment fails (runFiles history store listing)).1,
         history ++ [runRecord history store], true⟩) ∨
    (runDocs history store ≠ [] ∧
      (∃ sz, (downloadSegment fails (runFiles history store listing)).2 =
        some ([], sz)) ∧
      mainRun history store listing fails uploadOk =
        ⟨Event.checkpointWrite (runRecord history store).first_id
            (runRecord history store).last_id (runRecord history store).total ::
            ((downloadSegment fails (runFiles history store listing)).1 ++
              [Event.exitNormal]),
         history ++ [runRecord history store], false⟩) ∨
    (runDocs history store ≠ [] ∧
      (∃ segFiles sz, segFiles ≠ [] ∧
        (downloadSegment fails (runFiles history store listing)).2 =
          some (segFiles, sz) ∧
        mainRun history store listing fails uploadOk =
          ⟨Event.checkpointWrite (runRecord history store).first_id
              (runRecord history store).last_id (runRecord history store).total ::
              ((downloadSegment fails (runFiles history store listing)).1 ++
                ([Event.compressFiles (segFiles.map arcnameOf)] ++
                  (uploadToS3 uploadOk segFiles ++
                    (cleanupLocalFiles segFiles ++ [Event.exitNormal])))),
           history ++ [runRecord history store], false⟩)) := by
  by_cases hd : findDocs (readCursor history) store = []
  · left
    refine ⟨hd, ?_⟩
    simp [mainRun, hd]
  · right
    cases hmatch : (downloadSegment fails
        (get_files_to_download listing
          ((findDocs (readCursor history) store).map userPfx))).2 with
    | none =>
      left
      refine ⟨hd, hmatch, ?_⟩
      simp [mainRun, if_neg hd, hmatch, runDocs, runFiles, runRecord,
        update_history_file]
    | some p =>
      obtain ⟨segFiles, sz⟩ := p
      by_cases hseg : segFiles = []
      · right; left
        subst hseg
        refine ⟨hd, ⟨sz, hmatch⟩, ?_⟩
        simp [mainRun, if_neg hd, hmatch, runDocs, runFiles, runRecord,
          update_history_file]
      · right; right
        refine ⟨hd, segFiles, sz, hseg, hmatch, ?_⟩
        simp [mainRun, if_neg hd, hmatch, hseg, runDocs, runFiles, runRecord,
          update_history_file]

theorem downloadSegment_countP_zero (fails : List Char → Bool)
    (files : List S3Obj) (p : Event → Bool)
    (hp : ∀ k, p (Event.download k) = false)
    (hp2 : ∀ k, p (Event.fetchAbort k) = false) :
    (downloadSegment fails files).1.countP p = 0 := by
  apply List.countP_eq_zero.mpr
  intro e he
  rcases downloadSegment_event_kinds fails files e he with hk | hk
  · cases e <;> simp_all [Event.isDownload]
  · cases e <;> simp_all [Event.isFetchAbort]

theorem cleanupLocalFiles_countP_zero (segFiles : List (List Char))
    (p : Event → Bool)
    (hp : ∀ k, p (Event.removeLocal k) = false)
    (hp2 : p Event.removeZip = false) :
    (cleanupLocalFiles segFiles).countP p = 0 := by
  apply List.countP_eq_zero.mpr
  intro e he
  simp only [cleanupLocalFiles, List.mem_append, List.mem_map,
    List.mem_singleton] at he
  rcases he with ⟨k, _, rfl⟩ | rfl
  · simp [hp]
  · simp [hp2]

/-- Commit-order check of a trace: no bulk-delete call may appear before the
first confirmed upload. -/
def deletesOnlyAfterUpload : List Event → Bool
  | [] => true
  | Event.uploadDone :: _ => true
  | Event.deleteBatch _ :: _ => false
  | _ :: rest => deletesOnlyAfterUpload rest

theorem deletesOnlyAfterUpload_append (l rest : List Event)
    (h : ∀ e ∈ l, e.isDeleteBatch = false ∧ e ≠ Event.uploadDone) :
    deletesOnlyAfterUpload (l ++ rest) = deletesOnlyAfterUpload rest := by
  induction l with
  | nil => rfl
  | cons e t ih =>
    have he := h e (List.mem_cons_self e t)
    have ht := ih (fun x hx => h x (List.mem_cons_of_mem e hx))
    cases e <;> simp_all [deletesOnlyAfterUpload, Event.isDeleteBatch]

theorem deletesOnlyAfterUpload_of_no_delete (l : List Event)
    (h : ∀ e ∈ l, e.isDeleteBatch = false) :
    deletesOnlyAfterUpload l = true := by
  induction l with
  | nil => rfl
  | cons e t ih =>
    have he := h e (List.mem_cons_self e t)
    have ht := ih (fun x hx => h x (List.mem_cons_of_mem e hx))
    cases e <;> simp_all [deletesOnlyAfterUpload, Event.isDeleteBatch]

theorem downloadSegment_clean (fails : List Char → Bool) (files : List S3Obj) :
    ∀ e ∈ (downloadSegment fails files).1,
      e.isDeleteBatch = false ∧ e ≠ Event.uploadDone := by
  intro e he
  rcases downloadSegment_event_kinds fails files e he with hk | hk
  · cases e <;> simp_all [Event.isDownload, Event.isDeleteBatch]
  · cases e <;> simp_all [Event.isFetchAbort, Event.isDeleteBatch]

theorem cleanupLocalFiles_clean (segFiles : List (List Char)) :
    ∀ e ∈ cleanupLocalFiles segFiles,
      e.isDeleteBatch = false ∧ e ≠ Event.uploadDone := by
  intro e he
  simp only [cleanupLocalFiles, List.mem_append, List.mem_map,
    List.mem_singleton] at he
  rcases he with ⟨k, _, rfl⟩ | rfl <;> simp [Event.isDeleteBatch]

theorem deletesOnlyAfterUpload_cons_checkpoint (a b c : Nat) (L : List Event) :
    deletesOnlyAfterUpload (Event.checkpointWrite a b c :: L) =
      deletesOnlyAfterUpload L := rfl

theorem deletesOnlyAfterUpload_cons_compress (ns : List (List Char))
    (L : List Event) :
    deletesOnlyAfterUpload (Event.compressFiles ns :: L) =
      deletesOnlyAfterUpload L := rfl

theorem deletesOnlyAfterUpload_cons_attempt (L : List Event) :
    deletesOnlyAfterUpload (Event.uploadAttempt :: L) =
      deletesOnlyAfterUpload L := rfl

theorem deletesOnlyAfterUpload_cons_done (L : List Event) :
    deletesOnlyAfterUpload (Event.uploadDone :: L) = true := rfl

theorem deletesOnlyAfterUpload_cons_failed (L : List Event) :
    deletesOnlyAfterUpload (Event.uploadFailed :: L) =
      deletesOnlyAfterUpload L := rfl

/-- C2: in every run, the bulk delete of a segment's originals never
executes before the archive upload has returned success: no delete call
appears in the trace before the first confirmed upload, and when the upload
raises, `upload_to_s3` produces only the failed attempt — no delete call at
all. -/
theorem c2_delete_only_after_upload (history : List Checkpoint)
    (store : List Doc) (listing : List Char → List S3Obj)
    (fails : List Char → Bool) (uploadOk : Bool) :
    deletesOnlyAfterUpload
      (mainRun history store listing fails uploadOk).trace = true ∧
    ∀ segFiles, uploadToS3 false segFiles =
      [Event.uploadAttempt, Event.uploadFailed] := by
  refine ⟨?_, fun _ => rfl⟩
  rcases mainRun_shape history store listing fails uploadOk with
    ⟨_, hres⟩ | ⟨_, _, hres⟩ | ⟨_, ⟨sz, _⟩, hres⟩ |
    ⟨_, segFiles, sz, hseg, hdl, hres⟩
  · rw [hres]
    rfl
  · rw [hres]
    apply deletesOnlyAfterUpload_of_no_delete
    intro e he
    rcases List.mem_cons.mp he with rfl | he2
    · rfl
    · exact (downloadSegment_clean fails _ e he2).1
  · rw [hres]
    apply deletesOnlyAfterUpload_of_no_delete
    intro e he
    rcases List.mem_cons.mp he with rfl | he2
    · rfl
    · rcases List.mem_append.mp he2 with h3 | h3
      · exact (downloadSegment_clean fails _ e h3).1
      · rw [List.mem_singleton] at h3; subst h3; rfl
  · rw [hres]
    dsimp only
    rw [deletesOnlyAfterUpload_cons_checkpoint,
      deletesOnlyAfterUpload_append _ _ (downloadSegment_clean fails _),
      List.singleton_append, deletesOnlyAfterUpload_cons_compress]
    cases uploadOk with
    | true =>
      rw [show uploadToS3 true segFiles = Event.uploadAttempt ::
          Event.uploadDone :: (toBatches segFiles).map
            (fun b => Event.deleteBatch (b.map deleteKeyOf)) from rfl,
        List.cons_append, List.cons_append,
        deletesOnlyAfterUpload_cons_attempt, deletesOnlyAfterUpload_cons_done]
    | false =>
      rw [show uploadToS3 false segFiles =
          [Event.uploadAttempt, Event.uploadFailed] from rfl,
        List.cons_append, List.cons_append, List.nil_append,
        deletesOnlyAfterUpload_cons_attempt, deletesOnlyAfterUpload_cons_failed]
      apply deletesOnlyAfterUpload_of_no_delete
      intro e he
      rcases List.mem_append.mp he with h3 | h3
      · exact (cleanupLocalFiles_clean segFiles e h3).1
      · rw [List.mem_singleton] at h3; subst h3; rfl

/-- C9: `delete_files_from_s3` splits its input into consecutive slices of
at most 1000 keys per bulk-delete call, the issued calls cover the input
exactly and in order, and an input of 1500 keys yields exactly two calls of
1000 and 500 keys, in that order. -/
theorem c9_delete_batches_bounded (confirm : List (List Char) → Nat)
    (files : List (List Char)) :
    (∀ call ∈ (delete_files_from_s3 confirm files).1, call.length ≤ 1000) ∧
    (delete_files_from_s3 confirm files).1.flatten = files.map deleteKeyOf ∧
    (files.length = 1500 →
      (delete_files_from_s3 confirm files).1.map List.length = [1000, 500]) := by
  unfold delete_files_from_s3
  dsimp only
  refine ⟨?_, ?_, ?_⟩
  · intro call hc
    rcases List.mem_map.mp hc with ⟨b, hb, rfl⟩
    rw [List.length_map]
    exact toBatches_length_le files b hb
  · rw [← List.map_flatten, toBatches_flatten]
  · intro h1500
    rw [List.map_map]
    have hlen : (List.length ∘ fun b : List (List Char) =>
        b.map deleteKeyOf) = List.length := by
      funext b; simp
    rw [hlen, toBatches_lengths_1500 files h1500]

theorem c9_delete_batches_bounded_witness :
    (delete_files_from_s3 (fun _ => 0)
      (List.replicate 1500 "temp/x".data)).1.map List.length = [1000, 500] :=
  (c9_delete_batches_bounded (fun _ => 0)
    (List.replicate 1500 "temp/x".data)).2.2 (by rw [List.length_replicate])

/-- C5 counterexample: one local file whose bulk-delete response confirms 0
of the 1 requested key. The script still issues exactly one delete call —
the unconfirmed key is never retried — and the mismatch produces no error
value of any kind, since `delete_files_from_s3` returns plain data. -/
theorem c5_counterexample :
    (delete_files_from_s3 (fun _ => 0) ["temp/a/p1.jpg".data]).1 =
      [["proctoring/images/camera/u/a/p1.jpg".data]] ∧
    (delete_files_from_s3 (fun _ => 0) ["temp/a/p1.jpg".data]).2 = [0] ∧
    (1 : Nat) ≠ 0 := by
  refine ⟨?_, ?_, by decide⟩ <;>
    simp [delete_files_from_s3, toBatches, deleteKeyOf, SOURCE_PFX,
      LOCAL_TEMP_DIR]

/-- C5 amended: a mismatch between requested and confirmed-deleted counts is
ignored. The calls issued by `delete_files_from_s3` are exactly the 1000-key
slices of its input, independent of what the responses confirm; no retry
call is ever added and no error is raised. -/
theorem c5_mismatch_ignored (confirm confirm' : List (List Char) → Nat)
    (files : List (List Char)) :
    (delete_files_from_s3 confirm files).1 =
      (delete_files_from_s3 confirm' files).1 ∧
    (delete_files_from_s3 confirm files).1 =
      (toBatches files).map (fun b => b.map deleteKeyOf) ∧
    (delete_files_from_s3 confirm files).1.length =
      (toBatches files).length :=
  ⟨rfl, rfl, by simp [delete_files_from_s3]⟩

/-- Two six-gibibyte objects under the source root. -/
def bigA : S3Obj := ⟨"proctoring/images/camera/u/a/p1.jpg".data, 6442450944⟩

def bigB : S3Obj := ⟨"proctoring/images/camera/u/a/p2.jpg".data, 6442450944⟩

/-- C3 (code bug): `download_segment` admits every listed file and never
consults `SEGMENT_SIZE`, contradicting its own docstring ("Download files
until the target size is reached"). Two 6 GiB objects are both downloaded
and the resulting segment totals 12 GiB, above the 10 GiB budget. -/
theorem c3_segment_budget_not_enforced :
    downloadSegment (fun _ => false) [bigA, bigB] =
      ([Event.download bigA.key, Event.download bigB.key],
       some (["temp/a/p1.jpg".data, "temp/a/p2.jpg".data], 12884901888)) ∧
    SEGMENT_SIZE < 12884901888 := by decide

/-- C7: for a fully downloaded segment whose keys all live under the source
root, the keys passed to the bulk delete are exactly the segment's keys (in
order, with multiplicity), the archive member names are exactly the keys
stripped of the source root, and key uniqueness transfers to the delete
calls. In particular prepending the source root to a local path stripped of
the scratch directory recovers the original key. -/
theorem c7_archive_and_delete_keys_exact (confirm : List (List Char) → Nat)
    (files : List S3Obj) (segFiles : List (List Char)) (sz : Nat)
    (H : ∀ f ∈ files, ∃ r, f.key = SOURCE_PFX ++ r ∧ r.head? ≠ some '/')
    (hseg : (downloadSegment (fun _ => false) files).2 = some (segFiles, sz)) :
    (delete_files_from_s3 confirm segFiles).1.flatten = files.map S3Obj.key ∧
    segFiles.map arcnameOf =
      files.map (fun f => f.key.drop SOURCE_PFX.length) ∧
    ((files.map S3Obj.key).Nodup →
      (delete_files_from_s3 confirm segFiles).1.flatten.Nodup) := by
  have hok := downloadSegment_ok (fun _ => false) files (fun _ _ => rfl)
  rw [hok] at hseg
  simp only [Option.some.injEq, Prod.mk.injEq] at hseg
  obtain ⟨hsf, -⟩ := hseg
  subst hsf
  have h1 : (delete_files_from_s3 confirm
      (files.map fun f => localPathOf f.key)).1.flatten =
      files.map S3Obj.key := by
    unfold delete_files_from_s3
    dsimp only
    rw [← List.map_flatten, toBatches_flatten, List.map_map]
    apply List.map_congr_left
    intro f hf
    obtain ⟨r, hr, hr2⟩ := H f hf
    simp only [Function.comp_apply]
    rw [hr, deleteKeyOf_localPathOf r hr2]
  refine ⟨h1, ?_, fun hnd => h1 ▸ hnd⟩
  rw [List.map_map]
  apply List.map_congr_left
  intro f hf
  obtain ⟨r, hr, hr2⟩ := H f hf
  simp only [Function.comp_apply]
  rw [hr, arcnameOf_localPathOf r hr2, List.drop_left]

/-- One document and its single listed object, used as concrete inputs. -/
def dAlice : Doc := ⟨1, "alice".data⟩

def objAlice : S3Obj :=
  ⟨"proctoring/images/camera/u/alice/img1.jpg".data, 100⟩

theorem c7_archive_and_delete_keys_exact_witness :
    (delete_files_from_s3 (fun _ => 0) ["temp/alice/img1.jpg".data]).1.flatten =
      [objAlice].map S3Obj.key ∧
    ["temp/alice/img1.jpg".data].map arcnameOf =
      [objAlice].map (fun f => f.key.drop SOURCE_PFX.length) ∧
    (([objAlice].map S3Obj.key).Nodup →
      (delete_files_from_s3 (fun _ => 0)
        ["temp/alice/img1.jpg".data]).1.flatten.Nodup) :=
  c7_archive_and_delete_keys_exact (fun _ => 0) [objAlice]
    ["temp/alice/img1.jpg".data] 100
    (by
      intro f hf
      rw [List.mem_singleton] at hf
      subst hf
      exact ⟨"alice/img1.jpg".data, by decide, by decide⟩)
    (by decide)

theorem uploadToS3_countP_zero (uploadOk : Bool) (segFiles : List (List Char))
    (p : Event → Bool)
    (h1 : p Event.uploadAttempt = false) (h2 : p Event.uploadDone = false)
    (h3 : p Event.uploadFailed = false)
    (h4 : ∀ ks, p (Event.deleteBatch ks) = false) :
    (uploadToS3 uploadOk segFiles).countP p = 0 := by
  cases uploadOk with
  | false => simp [uploadToS3, List.countP_cons, h1, h3]
  | true =>
    have hz : ((toBatches segFiles).map
        (fun b => Event.deleteBatch (b.map deleteKeyOf))).countP p = 0 := by
      apply List.countP_eq_zero.mpr
      intro e he
      rcases List.mem_map.mp he with ⟨b, _, rfl⟩
      simp [h4]
    simp [uploadToS3, List.countP_cons, h1, h2, hz]

theorem downloadSegment_no_uploadFailed (fails : List Char → Bool)
    (files : List S3Obj) :
    Event.uploadFailed ∉ (downloadSegment fails files).1 := by
  intro hm
  rcases downloadSegment_event_kinds fails files _ hm with hk | hk <;>
    simp [Event.isDownload, Event.isFetchAbort] at hk

theorem uploadFailed_mem_uploadToS3 (uploadOk : Bool)
    (segFiles : List (List Char))
    (h : Event.uploadFailed ∈ uploadToS3 uploadOk segFiles) :
    uploadOk = false := by
  cases uploadOk with
  | false => rfl
  | true =>
    exfalso
    simp only [uploadToS3, if_pos, List.mem_cons] at h
    rcases h with h | h | h
    · exact absurd h (by simp)
    · exact absurd h (by simp)
    · rcases List.mem_map.mp h with ⟨b, _, hb⟩
      exact absurd hb (by simp)

/-- Listing collaborator for the single-object concrete runs. -/
def listAlice : List Char → List S3Obj :=
  fun r => if r = userPfx dAlice then [objAlice] else []

/-- C1 counterexample: a fully successful single-object run writes the
checkpoint record as its very first step, strictly before the download of
the segment (and hence before its upload and delete steps), contradicting
the claim that the checkpoint write never precedes them. -/
theorem c1_counterexample :
    (mainRun [] [dAlice] listAlice (fun _ => false) false).trace[0]? =
      some (Event.checkpointWrite 1 1 1) ∧
    (mainRun [] [dAlice] listAlice (fun _ => false) false).trace[1]? =
      some (Event.download objAlice.key) := by decide

/-- C1 amended: in every run whose metadata query is non-empty, the single
checkpoint record of the run is appended strictly BEFORE the download,
upload and delete steps of the segment: it is the first event of the trace,
it is the only checkpoint write, and the history gains exactly that
record. -/
theorem c1_checkpoint_written_before_pipeline (history : List Checkpoint)
    (store : List Doc) (listing : List Char → List S3Obj)
    (fails : List Char → Bool) (uploadOk : Bool)
    (h : runDocs history store ≠ []) :
    (mainRun history store listing fails uploadOk).trace[0]? =
      some (Event.checkpointWrite (runRecord history store).first_id
        (runRecord history store).last_id (runRecord history store).total) ∧
    (mainRun history store listing fails uploadOk).trace.countP
      Event.isCheckpointWrite = 1 ∧
    (mainRun history store listing fails uploadOk).history =
      history ++ [runRecord history store] := by
  rcases mainRun_shape history store listing fails uploadOk with
    ⟨hd, _⟩ | ⟨_, _, hres⟩ | ⟨_, ⟨sz, _⟩, hres⟩ |
    ⟨_, segFiles, sz, hseg, hdl, hres⟩
  · exact absurd hd h
  · rw [hres]
    refine ⟨by simp, ?_, rfl⟩
    simp only [List.countP_cons]
    rw [downloadSegment_countP_zero fails _ Event.isCheckpointWrite
      (fun _ => rfl) (fun _ => rfl)]
    rfl
  · rw [hres]
    refine ⟨by simp, ?_, rfl⟩
    simp only [List.countP_cons, List.countP_append]
    rw [downloadSegment_countP_zero fails _ Event.isCheckpointWrite
      (fun _ => rfl) (fun _ => rfl)]
    rfl
  · rw [hres]
    refine ⟨by simp, ?_, rfl⟩
    simp only [List.countP_cons, List.countP_append]
    rw [downloadSegment_countP_zero fails _ Event.isCheckpointWrite
      (fun _ => rfl) (fun _ => rfl),
      uploadToS3_countP_zero uploadOk segFiles Event.isCheckpointWrite
        rfl rfl rfl (fun _ => rfl),
      cleanupLocalFiles_countP_zero segFiles Event.isCheckpointWrite
        (fun _ => rfl) rfl]
    rfl

theorem c1_checkpoint_written_before_pipeline_witness :
    (mainRun [] [dAlice] listAlice (fun _ => false) false).trace[0]? =
      some (Event.checkpointWrite (runRecord [] [dAlice]).first_id
        (runRecord [] [dAlice]).last_id (runRecord [] [dAlice]).total) ∧
    (mainRun [] [dAlice] listAlice (fun _ => false) false).trace.countP
      Event.isCheckpointWrite = 1 ∧
    (mainRun [] [dAlice] listAlice (fun _ => false) false).history =
      [] ++ [runRecord [] [dAlice]] :=
  c1_checkpoint_written_before_pipeline [] [dAlice] listAlice
    (fun _ => false) false (by decide)

/-- C4 counterexample: in a run whose upload raises, the local archive is
not retained — the unconditional cleanup removes the zip file (while no
bulk delete is issued), contradicting the claim that the archive is kept
for manual retry. -/
theorem c4_counterexample :
    Event.uploadFailed ∈
      (mainRun [] [dAlice] listAlice (fun _ => false) false).trace ∧
    Event.removeZip ∈
      (mainRun [] [dAlice] listAlice (fun _ => false) false).trace ∧
    (mainRun [] [dAlice] listAlice (fun _ => false) false).trace.countP
      Event.isDeleteBatch = 0 := by decide

/-- C4 amended: in every run whose archive upload fails, no deletion of
originals runs, but the local archive file is not retained: the
unconditional cleanup removes the zip (and the downloaded files) anyway. -/
theorem c4_upload_failure_no_delete_but_zip_removed
    (history : List Checkpoint) (store : List Doc)
    (listing : List Char → List S3Obj) (fails : List Char → Bool)
    (uploadOk : Bool)
    (h : Event.uploadFailed ∈
      (mainRun history store listing fails uploadOk).trace) :
    (mainRun history store listing fails uploadOk).trace.countP
      Event.isDeleteBatch = 0 ∧
    Event.removeZip ∈ (mainRun history store listing fails uploadOk).trace := by
  rcases mainRun_shape history store listing fails uploadOk with
    ⟨_, hres⟩ | ⟨_, _, hres⟩ | ⟨_, ⟨sz, _⟩, hres⟩ |
    ⟨_, segFiles, sz, hseg, hdl, hres⟩
  · rw [hres] at h
    exact absurd h (by simp)
  · rw [hres] at h
    rcases List.mem_cons.mp h with h2 | h2
    · exact absurd h2 (by simp)
    · exact absurd h2 (downloadSegment_no_uploadFailed fails _)
  · rw [hres] at h
    rcases List.mem_cons.mp h with h2 | h2
    · exact absurd h2 (by simp)
    · rcases List.mem_append.mp h2 with h3 | h3
      · exact absurd h3 (downloadSegment_no_uploadFailed fails _)
      · exact absurd h3 (by simp)
  · rw [hres] at h ⊢
    rcases List.mem_cons.mp h with h2 | h2
    · exact absurd h2 (by simp)
    · rcases List.mem_append.mp h2 with h3 | h3
      · exact absurd h3 (downloadSegment_no_uploadFailed fails _)
      · rcases List.mem_append.mp h3 with h4 | h4
        · exact absurd h4 (by simp)
        · rcases List.mem_append.mp h4 with h5 | h5
          · have hok : uploadOk = false :=
              uploadFailed_mem_uploadToS3 uploadOk segFiles h5
            subst hok
            constructor
            · rw [show uploadToS3 false segFiles =
                  [Event.uploadAttempt, Event.uploadFailed] from rfl]
              simp only [List.countP_cons, List.countP_append]
              rw [downloadSegment_countP_zero fails _ Event.isDeleteBatch
                  (fun _ => rfl) (fun _ => rfl),
                cleanupLocalFiles_countP_zero segFiles Event.isDeleteBatch
                  (fun _ => rfl) rfl]
              rfl
            · have hz : Event.removeZip ∈ cleanupLocalFiles segFiles := by
                simp [cleanupLocalFiles]
              exact List.mem_cons_of_mem _
                (List.mem_append_right _ (List.mem_append_right _
                  (List.mem_append_right _ (List.mem_append_left _ hz))))
          · rcases List.mem_append.mp h5 with h6 | h6
            · exact absurd h6 (by
                intro hm
                rcases (cleanupLocalFiles_clean segFiles _ hm) with ⟨-, -⟩
                rcases List.mem_append.mp hm with h7 | h7
                · rcases List.mem_map.mp h7 with ⟨k, -, hk⟩
                  exact Event.noConfusion hk
                · rw [List.mem_singleton] at h7
                  exact Event.noConfusion h7)
            · exact absurd h6 (by simp)

theorem c4_upload_failure_no_delete_but_zip_removed_witness :
    (mainRun [] [dAlice] listAlice (fun _ => false) false).trace.countP
      Event.isDeleteBatch = 0 ∧
    Event.removeZip ∈
      (mainRun [] [dAlice] listAlice (fun _ => false) false).trace :=
  c4_upload_failure_no_delete_but_zip_removed [] [dAlice] listAlice
    (fun _ => false) false (by decide)

/-- One document whose key root holds ten objects, used for the
fetch-failure scenario. -/
def dBob : Doc := ⟨2, "bob".data⟩

/-- Relative names of the ten objects of the scenario. -/
def bobRels : List (List Char) :=
  ["bob/f01.jpg".data, "bob/f02.jpg".data, "bob/f03.jpg".data,
   "bob/f04.jpg".data, "bob/f05.jpg".data, "bob/f06.jpg".data,
   "bob/f07.jpg".data, "bob/f08.jpg".data, "bob/f09.jpg".data,
   "bob/f10.jpg".data]

/-- The ten listed objects of the scenario. -/
def bobObjs : List S3Obj := bobRels.map (fun r => ⟨SOURCE_PFX ++ r, 100⟩)

/-- Listing collaborator for the fetch-failure scenario. -/
def listBob : List Char → List S3Obj :=
  fun r => if r = userPfx dBob then bobObjs else []

/-- Download oracle that raises exactly on object number 7 of the ten. -/
def failsOn7 : List Char → Bool :=
  fun k => k = SOURCE_PFX ++ "bob/f07.jpg".data

/-- C6 counterexample: with the download of object 7 of 10 raising, the run
does abort with no upload and no delete — but the checkpoint has already
been appended (the history went from empty to one record) and the local
scratch is not cleaned (no removal events despite six completed
downloads), contradicting the claim. -/
theorem c6_counterexample :
    (mainRun [] [dBob] listBob failsOn7 true).crashed = true ∧
    (mainRun [] [dBob] listBob failsOn7 true).trace.countP
      Event.isDownload = 6 ∧
    (mainRun [] [dBob] listBob failsOn7 true).trace.countP
      Event.isCompress = 0 ∧
    (mainRun [] [dBob] listBob failsOn7 true).trace.countP
      Event.isUploadAttempt = 0 ∧
    (mainRun [] [dBob] listBob failsOn7 true).trace.countP
      Event.isDeleteBatch = 0 ∧
    (mainRun [] [dBob] listBob failsOn7 true).trace.countP
      Event.isRemoveLocal = 0 ∧
    (mainRun [] [dBob] listBob failsOn7 true).trace.countP
      Event.isRemoveZip = 0 ∧
    (mainRun [] [dBob] listBob failsOn7 true).history = [⟨2, 2, 1⟩] := by
  decide

/-- C6 amended: whenever a download raises, the run aborts with no archive
compressed or uploaded and no originals deleted — but the checkpoint record
has already been appended for the run, and the local scratch directory is
not cleaned (no removal events occur). -/
theorem c6_fetch_failure_aborts_without_cleanup
    (history : List Checkpoint) (store : List Doc)
    (listing : List Char → List S3Obj) (fails : List Char → Bool)
    (uploadOk : Bool)
    (h : (mainRun history store listing fails uploadOk).crashed = true) :
    (mainRun history store listing fails uploadOk).trace.countP
      Event.isCompress = 0 ∧
    (mainRun history store listing fails uploadOk).trace.countP
      Event.isUploadAttempt = 0 ∧
    (mainRun history store listing fails uploadOk).trace.countP
      Event.isDeleteBatch = 0 ∧
    (mainRun history store listing fails uploadOk).trace.countP
      Event.isRemoveLocal = 0 ∧
    (mainRun history store listing fails uploadOk).trace.countP
      Event.isRemoveZip = 0 ∧
    (mainRun history store listing fails uploadOk).history =
      history ++ [runRecord history store] := by
  rcases mainRun_shape history store listing fails uploadOk with
    ⟨_, hres⟩ | ⟨_, _, hres⟩ | ⟨_, ⟨sz, _⟩, hres⟩ |
    ⟨_, segFiles, sz, hseg, hdl, hres⟩
  · rw [hres] at h
    exact absurd h (by simp)
  · rw [hres]
    refine ⟨?_, ?_, ?_, ?_, ?_, rfl⟩ <;>
      · simp only [List.countP_cons]
        rw [downloadSegment_countP_zero fails _ _
          (fun _ => rfl) (fun _ => rfl)]
        rfl
  · rw [hres] at h
    exact absurd h (by simp)
  · rw [hres] at h
    exact absurd h (by simp)

theorem c6_fetch_failure_aborts_without_cleanup_witness :
    (mainRun [] [dBob] listBob failsOn7 true).trace.countP
      Event.isCompress = 0 ∧
    (mainRun [] [dBob] listBob failsOn7 true).trace.countP
      Event.isUploadAttempt = 0 ∧
    (mainRun [] [dBob] listBob failsOn7 true).trace.countP
      Event.isDeleteBatch = 0 ∧
    (mainRun [] [dBob] listBob failsOn7 true).trace.countP
      Event.isRemoveLocal = 0 ∧
    (mainRun [] [dBob] listBob failsOn7 true).trace.countP
      Event.isRemoveZip = 0 ∧
    (mainRun [] [dBob] listBob failsOn7 true).history =
      [] ++ [runRecord [] [dBob]] :=
  c6_fetch_failure_aborts_without_cleanup [] [dBob] listBob failsOn7 true
    (by decide)

/-- C10: in every run whose metadata query returns at least one document
but whose derived key roots match zero objects, the run appends exactly one
checkpoint record (advancing the cursor past those documents), performs no
download, no compression, no upload and no delete, and exits normally. -/
theorem c10_empty_listing_still_checkpoints (history : List Checkpoint)
    (store : List Doc) (listing : List Char → List S3Obj)
    (fails : List Char → Bool) (uploadOk : Bool)
    (h : runDocs history store ≠ [])
    (hfiles : runFiles history store listing = []) :
    mainRun history store listing fails uploadOk =
      ⟨[Event.checkpointWrite (runRecord history store).first_id
          (runRecord history store).last_id (runRecord history store).total,
        Event.exitNormal],
       history ++ [runRecord history store], false⟩ := by
  have hd : findDocs (readCursor history) store ≠ [] := h
  have hf : get_files_to_download listing
      ((findDocs (readCursor history) store).map userPfx) = [] := hfiles
  simp [mainRun, if_neg hd, hf, downloadSegment, runRecord, runDocs,
    update_history_file]

theorem c10_empty_listing_still_checkpoints_witness :
    mainRun [] [dAlice] (fun _ => []) (fun _ => false) true =
      ⟨[Event.checkpointWrite (runRecord [] [dAlice]).first_id
          (runRecord [] [dAlice]).last_id (runRecord [] [dAlice]).total,
        Event.exitNormal],
       [] ++ [runRecord [] [dAlice]], false⟩ :=
  c10_empty_listing_still_checkpoints [] [dAlice] (fun _ => [])
    (fun _ => false) true (by decide) (by decide)

theorem getLast?_map_eq {α β : Type} (f : α → β) (l : List α) :
    (l.map f).getLast? = l.getLast?.map f := by
  induction l with
  | nil => rfl
  | cons a t ih =>
    cases t with
    | nil => rfl
    | cons b t' =>
      simp only [List.map_cons, List.getLast?_cons_cons] at ih ⊢
      exact ih

theorem lastId_gt_cursor (c : Nat) (store : List Doc)
    (h : findDocs (some c) store ≠ []) :
    c < lastId (findDocs (some c) store) := by
  have hsub : findDocs (some c) store ⊆
      store.filter (fun d => c < d.id) := by
    intro x hx
    unfold findDocs at hx
    exact List.take_subset _ _ hx
  have hmem : (findDocs (some c) store).getLast h ∈ findDocs (some c) store :=
    List.getLast_mem h
  have hlt := (List.mem_filter.mp (hsub hmem)).2
  unfold lastId
  rw [List.getLast?_eq_getLast_of_ne_nil h]
  simpa using hlt

theorem chain_append_runRecord (history : List Checkpoint) (store : List Doc)
    (hd : runDocs history store ≠ [])
    (h : List.Chain' (· < ·) (history.map Checkpoint.last_id)) :
    List.Chain' (· < ·)
      ((history ++ [runRecord history store]).map Checkpoint.last_id) := by
  rw [List.map_append]
  apply List.chain'_append.mpr
  refine ⟨h, List.chain'_singleton _, ?_⟩
  intro x hx y hy
  simp only [List.map_cons, List.map_nil, List.head?_cons,
    Option.mem_def, Option.some.injEq] at hy
  subst hy
  rw [getLast?_map_eq, Option.mem_def, Option.map_eq_some'] at hx
  obtain ⟨ck, hck, hckx⟩ := hx
  subst hckx
  have hcur : readCursor history = some ck.last_id := by
    unfold readCursor
    rw [hck]
    rfl
  have hd' : findDocs (some ck.last_id) store ≠ [] := by
    have := hd
    unfold runDocs at this
    rw [hcur] at this
    exact this
  have hlt := lastId_gt_cursor ck.last_id store hd'
  show ck.last_id < (runRecord history store).last_id
  unfold runRecord runDocs
  rw [hcur]
  exact hlt

/-- C8: across every sequence of runs, the `last_id` values stored in the
history file form a strictly increasing sequence: a run resumes from the
most recent record's `last_id`, queries only strictly greater identifiers
in ascending order, and appends the final identifier of a non-empty result
as the new `last_id`, so one run preserves strict monotonicity of the
stored `last_id` sequence. -/
theorem c8_checkpoint_lastIds_strictly_increasing (history : List Checkpoint)
    (store : List Doc) (listing : List Char → List S3Obj)
    (fails : List Char → Bool) (uploadOk : Bool)
    (h : List.Chain' (· < ·) (history.map Checkpoint.last_id)) :
    List.Chain' (· < ·)
      ((mainRun history store listing fails uploadOk).history.map
        Checkpoint.last_id) := by
  rcases mainRun_shape history store listing fails uploadOk with
    ⟨_, hres⟩ | ⟨hd, _, hres⟩ | ⟨hd, _, hres⟩ |
    ⟨hd, _, _, _, _, hres⟩ <;> rw [hres]
  · exact h
  · exact chain_append_runRecord history store hd h
  · exact chain_append_runRecord history store hd h
  · exact chain_append_runRecord history store hd h

theorem c8_checkpoint_lastIds_strictly_increasing_witness :
    List.Chain' (· < ·)
      ((mainRun [⟨1, 1, 1⟩] [⟨2, "bob".data⟩] (fun _ => [])
        (fun _ => false) true).history.map Checkpoint.last_id) :=
  c8_checkpoint_lastIds_strictly_increasing [⟨1, 1, 1⟩] [⟨2, "bob".data⟩]
    (fun _ => []) (fun _ => false) true (by simp)
